import Mathlib

/-!
Shallow embedding of the kobe_scraper repository: the bootstrap
confidence-interval estimators (`bootstrap_predict_interval` in
src/analist2.py, `rf_bootstrap_interval` in src/analist3.py,
`xgb_bootstrap_interval` in src/analist5.py), the XGBoost result writer
(`save_result` in src/analist5.py) and the deduplicating CSV writer
(`save_to_csv` in src/kobe_bid_scraper.py).

Modelling conventions:
* numeric values are rationals (exact arithmetic stands in for the
  floating-point arithmetic of numpy/pandas);
* the pseudo-randomness of `np.random.choice` is externalized: every
  estimator call receives the list of per-round resample-index draws, one
  list of row indices per bootstrap round, so the loop count `n_bootstrap`
  equals the length of that list;
* the model family (`Ridge` / `RandomForestRegressor` / `xgb.train`) is
  abstracted as a function `fp` taking the resampled features, the
  resampled targets and the evaluation features, and returning either the
  length-M prediction vector or the raised exception;
* Python exceptions are an explicit error type (`Except`); the source
  scripts install no exception handler inside the estimators, so any
  exception of a round propagates out of the whole call.
-/

/-- Python-level exceptions relevant to the estimator call. `invalidInput`
and `modelFit` are the two error kinds named by the specification
(`InvalidInputError`, `ModelFitError` wrapping a cause); `valueError` and
`indexError` stand for the raw exceptions raised by sklearn/xgboost (shape
and degenerate-fit errors) and by numpy (`np.percentile` on an empty
array). The source scripts define no exception classes of their own. -/
inductive PyErr : Type where
  | invalidInput : PyErr
  | modelFit : PyErr → PyErr
  | valueError : PyErr
  | indexError : PyErr
deriving DecidableEq

/-- One bootstrap round of the abstract model family: construct a fresh
model, fit it on the resampled features/targets, and predict on the
evaluation features (the `fit`/`predict` call pair of the source), yielding
the predictions or the raised exception. -/
abbrev FitPredict : Type :=
  List (List ℚ) → List ℚ → List (List ℚ) → Except PyErr (List ℚ)

/-- Positional row selection, the embedding of `X.iloc[idx]` /
`y.iloc[idx]` for an index list drawn by `np.random.choice`. -/
def gatherRows {α : Type} (xs : List α) (idx : List Nat) (d : α) : List α :=
  idx.map (fun i => xs.getD i d)

/-- Mean of a list of rationals, the embedding of `np.mean` over one
column. -/
def listMean (v : List ℚ) : ℚ := v.sum / (v.length : ℚ)

/-- Minimum of a nonempty list (0 for the empty list). -/
def listMin : List ℚ → ℚ
  | [] => 0
  | x :: xs => xs.foldl min x

/-- Maximum of a nonempty list (0 for the empty list). -/
def listMax : List ℚ → ℚ
  | [] => 0
  | x :: xs => xs.foldl max x

/-- Ascending sort, the embedding of `np.sort` on one column. -/
def sortAsc (v : List ℚ) : List ℚ := List.insertionSort (fun a b => a ≤ b) v

/-- Linear interpolation along a (sorted) value list at fractional
position `pos`, numpy's default percentile interpolation: with
`i = floor(pos)` the result is `s[i] + (pos - i) * (s[i+1] - s[i])`,
collapsing to the last element when `i + 1` falls outside the list. -/
def interpAt (s : List ℚ) (pos : ℚ) : ℚ :=
  let i := (⌊pos⌋).toNat
  if i + 1 < s.length then
    s.getD i 0 + (pos - (i : ℚ)) * (s.getD (i + 1) 0 - s.getD i 0)
  else s.getD (s.length - 1) 0

/-- The value of `np.percentile(v, q)` for one column `v` and a percentage
`q` in [0, 100]: linear interpolation at position `(q/100) * (len - 1)` of
the sorted column. -/
def percentile1 (v : List ℚ) (q : ℚ) : ℚ :=
  interpAt (sortAsc v) ((q / 100) * ((v.length : ℚ) - 1))

/-- Column `m` of the B x M prediction matrix (rows are per-round
prediction vectors). -/
def colOf (A : List (List ℚ)) (m : Nat) : List ℚ :=
  A.map (fun row => row.getD m 0)

/-- The embedding of `np.mean(preds_array, axis=0)`: the per-column means,
indexed by the width of the first row. -/
def np_mean_axis0 (A : List (List ℚ)) : List ℚ :=
  (List.range ((A.headD []).length)).map (fun m => listMean (colOf A m))

/-- The embedding of `np.percentile(preds_array, q, axis=0)`: numpy raises
`IndexError` on an empty matrix and `ValueError` when `q` is outside
[0, 100]; otherwise it returns the per-column interpolated percentiles. -/
def np_percentile_axis0 (A : List (List ℚ)) (q : ℚ) : Except PyErr (List ℚ) :=
  if A.length = 0 then Except.error PyErr.indexError
  else if 0 ≤ q ∧ q ≤ 100 then
    Except.ok ((List.range ((A.headD []).length)).map
      (fun m => percentile1 (colOf A m) q))
  else Except.error PyErr.valueError

/-- The bootstrap loop shared by all three scripts (src/analist2.py lines
62-72, src/analist3.py lines 56-65, src/analist5.py lines 75-86): for each
per-round resample draw, gather the resampled rows, instantiate a fresh
model and fit/predict; a raised exception aborts the loop immediately.
The natural-number component counts the model instantiations performed
(one per round entered, the model object being constructed before `fit`
runs), instrumenting the specification's counting model factory. -/
def bootLoop (fp : FitPredict) (Xtr : List (List ℚ)) (ytr : List ℚ)
    (Xte : List (List ℚ)) : List (List Nat) → Nat × Except PyErr (List (List ℚ))
  | [] => (0, Except.ok [])
  | idx :: rest =>
    match fp (gatherRows Xtr idx []) (gatherRows ytr idx 0) Xte with
    | Except.error e => (1, Except.error e)
    | Except.ok preds =>
      let r := bootLoop fp Xtr ytr Xte rest
      (r.1 + 1, Except.map (fun l => preds :: l) r.2)

/-- Number of model instantiations an estimator call performs (the
specification's counting model factory observes this value). -/
def modelsInstantiated (fp : FitPredict) (Xtr : List (List ℚ)) (ytr : List ℚ)
    (Xte : List (List ℚ)) (resamples : List (List Nat)) : Nat :=
  (bootLoop fp Xtr ytr Xte resamples).1

/-- The embedding of `bootstrap_predict_interval` (src/analist2.py lines
59-79): run the bootstrap loop, then summarize the B x M prediction matrix
column-wise into `(mean, lower, upper)` with
`lower = np.percentile(arr, 100*(alpha/2), axis=0)` and
`upper = np.percentile(arr, 100*(1-alpha/2), axis=0)`. The source performs
no input validation of its own: the only failures are the exceptions of
the per-round fit/predict calls and of `np.percentile`. -/
def bootstrap_predict_interval (fp : FitPredict) (Xtr : List (List ℚ))
    (ytr : List ℚ) (Xte : List (List ℚ)) (resamples : List (List Nat))
    (alpha : ℚ) : Except PyErr (List ℚ × List ℚ × List ℚ) :=
  Except.bind (bootLoop fp Xtr ytr Xte resamples).2 (fun A =>
  Except.bind (np_percentile_axis0 A (100 * (alpha / 2))) (fun lower =>
  Except.bind (np_percentile_axis0 A (100 * (1 - alpha / 2))) (fun upper =>
  Except.ok (np_mean_axis0 A, lower, upper))))

/-- The embedding of `rf_bootstrap_interval` (src/analist3.py lines 52-71):
identical pipeline to src/analist2.py with the RandomForest model family
supplied as `fp` (the source computes `mean` before the percentiles, which
is observationally identical since `arr.mean` raises nothing here). -/
def rf_bootstrap_interval (fp : FitPredict) (Xtr : List (List ℚ))
    (ytr : List ℚ) (Xte : List (List ℚ)) (resamples : List (List Nat))
    (alpha : ℚ) : Except PyErr (List ℚ × List ℚ × List ℚ) :=
  Except.bind (bootLoop fp Xtr ytr Xte resamples).2 (fun A =>
  Except.bind (np_percentile_axis0 A (100 * (alpha / 2))) (fun lower =>
  Except.bind (np_percentile_axis0 A (100 * (1 - alpha / 2))) (fun upper =>
  Except.ok (np_mean_axis0 A, lower, upper))))

/-- The embedding of `y.clip(lower=c)` of pandas: every value below the
floor `c` is replaced by `c`, into a fresh series. -/
def clipLower (y : List ℚ) (c : ℚ) : List ℚ := y.map (fun t => max t c)

/-- The embedding of `xgb_bootstrap_interval` (src/analist5.py lines
64-92): first clamp the targets with `y = y.clip(lower=0.90)`, then run
the very same bootstrap-loop/summary pipeline on the clamped targets with
the xgboost model family supplied as `fp`. -/
def xgb_bootstrap_interval (fp : FitPredict) (X : List (List ℚ))
    (y : List ℚ) (Xte : List (List ℚ)) (resamples : List (List Nat))
    (alpha : ℚ) : Except PyErr (List ℚ × List ℚ × List ℚ) :=
  Except.bind (bootLoop fp X (clipLower y (9 / 10)) Xte resamples).2 (fun A =>
  Except.bind (np_percentile_axis0 A (100 * (alpha / 2))) (fun lower =>
  Except.bind (np_percentile_axis0 A (100 * (1 - alpha / 2))) (fun upper =>
  Except.ok (np_mean_axis0 A, lower, upper))))

/-- Concrete sklearn-style model family used by witnesses and
counterexamples: fitting on an empty resample raises (sklearn
`ValueError`), predicting on evaluation rows whose feature width differs
from the training width raises (sklearn `ValueError`), and otherwise every
prediction is the mean of the fitted targets — the trivial model of the
specification's concrete scenario. -/
def meanModel : FitPredict := fun Xs ys Xte =>
  if Xs.length = 0 then Except.error PyErr.valueError
  else if Xte.all (fun r => r.length = (Xs.headD []).length) then
    Except.ok (Xte.map (fun _ => listMean ys))
  else Except.error PyErr.valueError

/-- A raw test row as consumed by `save_result` in src/analist5.py: the
construction name column 工事名 and the planned-price column 予定価格 (the
only two columns the writer reads from the raw dataframe). -/
structure RawRow : Type where
  kojiMei : String
  yoteiKakaku : ℚ
deriving DecidableEq

/-- An output row of `save_result` in src/analist5.py, holding the four
written columns 工事名, 予定価格, 予測最低制限価格（万円）,
予測制限率（%）. -/
structure XgbOutRow : Type where
  kojiMei : String
  yoteiKakaku : ℚ
  yosokuSaiteiSeigenKakakuMan : ℚ
  yosokuSeigenRitsuPct : ℚ
deriving DecidableEq

/-- The embedding of `save_result` (src/analist5.py lines 97-108): the
predicted-price column is `upper * 予定価格 / 10000` and the
predicted-ratio column is `upper * 100`, row-aligned with the raw test
dataframe; the `mean` and `lower` arguments are accepted but never read. -/
def save_result (mean lower upper : List ℚ) (raw : List RawRow) :
    List XgbOutRow :=
  raw.enum.map (fun p =>
    { kojiMei := p.2.kojiMei
      yoteiKakaku := p.2.yoteiKakaku
      yosokuSaiteiSeigenKakakuMan := upper.getD p.1 0 * p.2.yoteiKakaku / 10000
      yosokuSeigenRitsuPct := upper.getD p.1 0 * 100 })

/-- A CSV row as handled by `save_to_csv` in src/kobe_bid_scraper.py: the
two deduplication-key columns 工事名 and 開札日時, and the remaining six
columns collapsed into a field list. -/
structure CsvRow : Type where
  kojiMei : String
  kaisatsuNichiji : String
  rest : List String
deriving DecidableEq

/-- The deduplication key of one CSV row, the pair (工事名, 開札日時) of
src/kobe_bid_scraper.py line 651. -/
def rowKey (r : CsvRow) : String × String := (r.kojiMei, r.kaisatsuNichiji)

/-- The new rows a `save_to_csv` call actually writes in append mode
(src/kobe_bid_scraper.py line 652): the input rows whose key is absent
from the keys of the rows already in the file. -/
def dedupNewRows (data existing : List CsvRow) : List CsvRow :=
  data.filter (fun r => decide (rowKey r ∉ existing.map rowKey))

/-- The embedding of `save_to_csv` with `append=True` on an existing,
readable file (src/kobe_bid_scraper.py lines 625-671), as a transformer on
the file contents: the existing rows stay in place and the deduplicated
new rows are appended after them. -/
def save_to_csv (data existing : List CsvRow) : List CsvRow :=
  existing ++ dedupNewRows data existing

/-- Nearest-rank percentile value, modelled from the specification's words
for the refinement comparison of the percentile claim: the value at
1-indexed rank `r` of the sorted column (rank 1 is the smallest value). -/
def nearestRankValue (v : List ℚ) (r : Nat) : ℚ :=
  (sortAsc v).getD (r - 1) 0

/-- The specification's lower rank `ceil(B * (1 - confidence_level) / 2)`
for a column of `B` bootstrap predictions. -/
def specLowerRank (B : Nat) (c : ℚ) : Nat :=
  (⌈(B : ℚ) * (1 - c) / 2⌉).toNat

/-- The specification's upper rank
`floor(B * (1 - (1 - confidence_level) / 2))` for a column of `B`
bootstrap predictions. -/
def specUpperRank (B : Nat) (c : ℚ) : Nat :=
  (⌊(B : ℚ) * (1 - (1 - c) / 2)⌋).toNat

theorem bootLoop_nil (fp : FitPredict) (Xtr : List (List ℚ)) (ytr : List ℚ)
    (Xte : List (List ℚ)) : bootLoop fp Xtr ytr Xte [] = (0, Except.ok []) := rfl

theorem bootLoop_cons (fp : FitPredict) (Xtr : List (List ℚ)) (ytr : List ℚ)
    (Xte : List (List ℚ)) (idx : List Nat) (rest : List (List Nat)) :
    bootLoop fp Xtr ytr Xte (idx :: rest) =
      match fp (gatherRows Xtr idx []) (gatherRows ytr idx 0) Xte with
      | Except.error e => (1, Except.error e)
      | Except.ok preds =>
        ((bootLoop fp Xtr ytr Xte rest).1 + 1,
          Except.map (fun l => preds :: l) (bootLoop fp Xtr ytr Xte rest).2) := rfl

theorem bootLoop_cons_err (fp : FitPredict) (Xtr : List (List ℚ)) (ytr : List ℚ)
    (Xte : List (List ℚ)) (idx : List Nat) (rest : List (List Nat)) (e : PyErr)
    (h : fp (gatherRows Xtr idx []) (gatherRows ytr idx 0) Xte = Except.error e) :
    bootLoop fp Xtr ytr Xte (idx :: rest) = (1, Except.error e) := by
  rw [bootLoop_cons, h]

theorem bootLoop_cons_ok (fp : FitPredict) (Xtr : List (List ℚ)) (ytr : List ℚ)
    (Xte : List (List ℚ)) (idx : List Nat) (rest : List (List Nat)) (preds : List ℚ)
    (h : fp (gatherRows Xtr idx []) (gatherRows ytr idx 0) Xte = Except.ok preds) :
    bootLoop fp Xtr ytr Xte (idx :: rest) =
      ((bootLoop fp Xtr ytr Xte rest).1 + 1,
        Except.map (fun l => preds :: l) (bootLoop fp Xtr ytr Xte rest).2) := by
  rw [bootLoop_cons, h]

theorem bootLoop_ok_length (fp : FitPredict) (Xtr : List (List ℚ)) (ytr : List ℚ)
    (Xte : List (List ℚ)) : ∀ (rs : List (List Nat)) (A : List (List ℚ)),
    (bootLoop fp Xtr ytr Xte rs).2 = Except.ok A → A.length = rs.length := by
  intro rs
  induction rs with
  | nil =>
    intro A h
    rw [bootLoop_nil] at h
    cases h
    rfl
  | cons idx rest ih =>
    intro A h
    cases hfp : fp (gatherRows Xtr idx []) (gatherRows ytr idx 0) Xte with
    | error e =>
      rw [bootLoop_cons_err fp Xtr ytr Xte idx rest e hfp] at h
      cases h
    | ok preds =>
      rw [bootLoop_cons_ok fp Xtr ytr Xte idx rest preds hfp] at h
      cases hrec : (bootLoop fp Xtr ytr Xte rest).2 with
      | error e => rw [hrec] at h; cases h
      | ok B =>
        rw [hrec] at h
        cases h
        simp [ih B hrec]

theorem bootLoop_error_src (fp : FitPredict) (Xtr : List (List ℚ)) (ytr : List ℚ)
    (Xte : List (List ℚ)) : ∀ (rs : List (List Nat)) (e : PyErr),
    (bootLoop fp Xtr ytr Xte rs).2 = Except.error e →
    ∃ idx, fp (gatherRows Xtr idx []) (gatherRows ytr idx 0) Xte = Except.error e := by
  intro rs
  induction rs with
  | nil =>
    intro e h
    rw [bootLoop_nil] at h
    cases h
  | cons idx rest ih =>
    intro e h
    cases hfp : fp (gatherRows Xtr idx []) (gatherRows ytr idx 0) Xte with
    | error e₂ =>
      rw [bootLoop_cons_err fp Xtr ytr Xte idx rest e₂ hfp] at h
      cases h
      exact ⟨idx, hfp⟩
    | ok preds =>
      rw [bootLoop_cons_ok fp Xtr ytr Xte idx rest preds hfp] at h
      cases hrec : (bootLoop fp Xtr ytr Xte rest).2 with
      | error e₂ =>
        rw [hrec] at h
        cases h
        exact ih e hrec
      | ok B => rw [hrec] at h; cases h

theorem bootLoop_congr (fp₁ fp₂ : FitPredict) (Xtr : List (List ℚ)) (ytr : List ℚ)
    (Xte : List (List ℚ)) : ∀ (rs : List (List Nat)),
    (∀ idx ∈ rs, fp₁ (gatherRows Xtr idx []) (gatherRows ytr idx 0) Xte =
      fp₂ (gatherRows Xtr idx []) (gatherRows ytr idx 0) Xte) →
    bootLoop fp₁ Xtr ytr Xte rs = bootLoop fp₂ Xtr ytr Xte rs := by
  intro rs
  induction rs with
  | nil => intro _; rfl
  | cons idx rest ih =>
    intro h
    have hidx := h idx (List.mem_cons_self idx rest)
    have hrest := ih (fun j hj => h j (List.mem_cons_of_mem idx hj))
    cases hfp : fp₂ (gatherRows Xtr idx []) (gatherRows ytr idx 0) Xte with
    | error e =>
      rw [bootLoop_cons_err fp₁ Xtr ytr Xte idx rest e (hidx.trans hfp),
        bootLoop_cons_err fp₂ Xtr ytr Xte idx rest e hfp]
    | ok preds =>
      rw [bootLoop_cons_ok fp₁ Xtr ytr Xte idx rest preds (hidx.trans hfp),
        bootLoop_cons_ok fp₂ Xtr ytr Xte idx rest preds hfp, hrest]

theorem bootLoop_first_failure (fp : FitPredict) (Xtr : List (List ℚ)) (ytr : List ℚ)
    (Xte : List (List ℚ)) (idx : List Nat) (e : PyErr)
    (hfail : fp (gatherRows Xtr idx []) (gatherRows ytr idx 0) Xte = Except.error e) :
    ∀ (rs₁ rs₂ : List (List Nat)),
    (∀ s ∈ rs₁, (fp (gatherRows Xtr s []) (gatherRows ytr s 0) Xte).isOk = true) →
    bootLoop fp Xtr ytr Xte (rs₁ ++ idx :: rs₂) = (rs₁.length + 1, Except.error e) := by
  intro rs₁
  induction rs₁ with
  | nil =>
    intro rs₂ _
    simpa using bootLoop_cons_err fp Xtr ytr Xte idx rs₂ e hfail
  | cons s rest ih =>
    intro rs₂ hok
    have hs := hok s (List.mem_cons_self s rest)
    cases hfp : fp (gatherRows Xtr s []) (gatherRows ytr s 0) Xte with
    | error e₂ => rw [hfp] at hs; cases hs
    | ok preds =>
      have hrest := ih rs₂ (fun j hj => hok j (List.mem_cons_of_mem s hj))
      rw [List.cons_append, bootLoop_cons_ok fp Xtr ytr Xte s (rest ++ idx :: rs₂) preds hfp,
        hrest]
      simp [Except.map]

theorem getD_map_range (f : Nat → ℚ) (n m : Nat) (hm : m < n) (d : ℚ) :
    ((List.range n).map f).getD m d = f m := by
  rw [List.getD_eq_getElem?_getD, List.getElem?_map, List.getElem?_range hm]
  rfl

theorem getD_map_of_lt {α β : Type} (f : α → β) (l : List α) (i : Nat)
    (hi : i < l.length) (d : β) (d₀ : α) :
    (l.map f).getD i d = f (l.getD i d₀) := by
  rw [List.getD_eq_getElem?_getD, List.getElem?_map, List.getElem?_eq_getElem hi,
    List.getD_eq_getElem l d₀ hi]
  rfl

theorem range_map_getD_self (l : List ℚ) (d : ℚ) :
    (List.range l.length).map (fun m => l.getD m d) = l := by
  apply List.ext_getElem
  · simp
  · intro i h1 h2
    rw [List.getElem_map, List.getElem_range, List.getD_eq_getElem l d h2]

theorem colOf_length (A : List (List ℚ)) (m : Nat) :
    (colOf A m).length = A.length := by
  simp [colOf]

theorem sortAsc_length (v : List ℚ) : (sortAsc v).length = v.length :=
  List.length_insertionSort (fun a b => a ≤ b) v

theorem sortAsc_sorted (v : List ℚ) :
    List.Sorted (fun a b : ℚ => a ≤ b) (sortAsc v) :=
  List.sorted_insertionSort (fun a b : ℚ => a ≤ b) v

theorem sorted_getD_mono (s : List ℚ) (hs : List.Sorted (fun a b : ℚ => a ≤ b) s)
    (i j : Nat) (hij : i ≤ j) (hj : j < s.length) :
    s.getD i 0 ≤ s.getD j 0 := by
  rcases Nat.eq_or_lt_of_le hij with h | h
  · subst h
    exact le_refl _
  · have hi : i < s.length := lt_trans h hj
    have hlt : (⟨i, hi⟩ : Fin s.length) < ⟨j, hj⟩ := h
    have := hs.rel_get_of_lt hlt
    rw [List.getD_eq_getElem s 0 hi, List.getD_eq_getElem s 0 hj]
    simpa [List.get_eq_getElem] using this

theorem interpAt_mono (s : List ℚ) (hs : List.Sorted (fun a b : ℚ => a ≤ b) s)
    (p₁ p₂ : ℚ) (h0 : 0 ≤ p₁) (h12 : p₁ ≤ p₂) :
    interpAt s p₁ ≤ interpAt s p₂ := by
  have h02 : 0 ≤ p₂ := le_trans h0 h12
  have hf1 : 0 ≤ ⌊p₁⌋ := Int.floor_nonneg.mpr h0
  have hf2 : 0 ≤ ⌊p₂⌋ := Int.floor_nonneg.mpr h02
  have hi1 : ((⌊p₁⌋.toNat : ℕ) : ℚ) = ((⌊p₁⌋ : ℤ) : ℚ) := by
    exact_mod_cast Int.toNat_of_nonneg hf1
  have hi2 : ((⌊p₂⌋.toNat : ℕ) : ℚ) = ((⌊p₂⌋ : ℤ) : ℚ) := by
    exact_mod_cast Int.toNat_of_nonneg hf2
  have hii : ⌊p₁⌋.toNat ≤ ⌊p₂⌋.toNat := Int.toNat_le_toNat (Int.floor_le_floor h12)
  have hg10 : 0 ≤ p₁ - ((⌊p₁⌋.toNat : ℕ) : ℚ) := by
    rw [hi1]; linarith [Int.floor_le p₁]
  have hg11 : p₁ - ((⌊p₁⌋.toNat : ℕ) : ℚ) ≤ 1 := by
    rw [hi1]; linarith [Int.lt_floor_add_one p₁]
  have hg20 : 0 ≤ p₂ - ((⌊p₂⌋.toNat : ℕ) : ℚ) := by
    rw [hi2]; linarith [Int.floor_le p₂]
  simp only [interpAt]
  split_ifs with hb1 hb2 hb2
  · rcases Nat.eq_or_lt_of_le hii with heq | hlt
    · rw [heq]
      have hd : 0 ≤ s.getD (⌊p₂⌋.toNat + 1) 0 - s.getD (⌊p₂⌋.toNat) 0 := by
        have := sorted_getD_mono s hs (⌊p₂⌋.toNat) (⌊p₂⌋.toNat + 1)
          (Nat.le_succ _) hb2
        linarith
      have hmul := mul_le_mul_of_nonneg_right
        (sub_le_sub_right h12 ((⌊p₂⌋.toNat : ℕ) : ℚ)) hd
      rw [heq] at hg10
      nlinarith
    · have hstep : ⌊p₁⌋.toNat + 1 ≤ ⌊p₂⌋.toNat := hlt
      have hd1 : 0 ≤ s.getD (⌊p₁⌋.toNat + 1) 0 - s.getD (⌊p₁⌋.toNat) 0 := by
        have := sorted_getD_mono s hs (⌊p₁⌋.toNat) (⌊p₁⌋.toNat + 1)
          (Nat.le_succ _) hb1
        linarith
      have hub : s.getD (⌊p₁⌋.toNat) 0 +
          (p₁ - ((⌊p₁⌋.toNat : ℕ) : ℚ)) *
            (s.getD (⌊p₁⌋.toNat + 1) 0 - s.getD (⌊p₁⌋.toNat) 0) ≤
          s.getD (⌊p₁⌋.toNat + 1) 0 := by nlinarith
      have hmid : s.getD (⌊p₁⌋.toNat + 1) 0 ≤ s.getD (⌊p₂⌋.toNat) 0 :=
        sorted_getD_mono s hs (⌊p₁⌋.toNat + 1) (⌊p₂⌋.toNat) hstep
          (Nat.lt_of_succ_lt hb2)
      have hd2 : 0 ≤ s.getD (⌊p₂⌋.toNat + 1) 0 - s.getD (⌊p₂⌋.toNat) 0 := by
        have := sorted_getD_mono s hs (⌊p₂⌋.toNat) (⌊p₂⌋.toNat + 1)
          (Nat.le_succ _) hb2
        linarith
      have hlb : s.getD (⌊p₂⌋.toNat) 0 ≤ s.getD (⌊p₂⌋.toNat) 0 +
          (p₂ - ((⌊p₂⌋.toNat : ℕ) : ℚ)) *
            (s.getD (⌊p₂⌋.toNat + 1) 0 - s.getD (⌊p₂⌋.toNat) 0) := by nlinarith
      linarith
  · have hd1 : 0 ≤ s.getD (⌊p₁⌋.toNat + 1) 0 - s.getD (⌊p₁⌋.toNat) 0 := by
      have := sorted_getD_mono s hs (⌊p₁⌋.toNat) (⌊p₁⌋.toNat + 1)
        (Nat.le_succ _) hb1
      linarith
    have hub : s.getD (⌊p₁⌋.toNat) 0 +
        (p₁ - ((⌊p₁⌋.toNat : ℕ) : ℚ)) *
          (s.getD (⌊p₁⌋.toNat + 1) 0 - s.getD (⌊p₁⌋.toNat) 0) ≤
        s.getD (⌊p₁⌋.toNat + 1) 0 := by nlinarith
    have hlast : s.getD (⌊p₁⌋.toNat + 1) 0 ≤ s.getD (s.length - 1) 0 := by
      apply sorted_getD_mono s hs (⌊p₁⌋.toNat + 1) (s.length - 1)
      · omega
      · omega
    linarith
  · exact absurd (by omega : ⌊p₁⌋.toNat + 1 < s.length) hb1
  · exact le_refl _

theorem percentile1_mono (v : List ℚ) (hv : 1 ≤ v.length) (q₁ q₂ : ℚ)
    (h0 : 0 ≤ q₁) (h12 : q₁ ≤ q₂) : percentile1 v q₁ ≤ percentile1 v q₂ := by
  have hlen : (0 : ℚ) ≤ (v.length : ℚ) - 1 := by
    have h1 : (1 : ℚ) ≤ (v.length : ℚ) := by exact_mod_cast hv
    linarith
  have hp0 : 0 ≤ (q₁ / 100) * ((v.length : ℚ) - 1) :=
    mul_nonneg (div_nonneg h0 (by norm_num)) hlen
  have hpm : (q₁ / 100) * ((v.length : ℚ) - 1) ≤
      (q₂ / 100) * ((v.length : ℚ) - 1) :=
    mul_le_mul_of_nonneg_right (by linarith) hlen
  exact interpAt_mono (sortAsc v) (sortAsc_sorted v) _ _ hp0 hpm

theorem foldl_min_le_init (xs : List ℚ) : ∀ a : ℚ, xs.foldl min a ≤ a := by
  induction xs with
  | nil => intro a; exact le_refl a
  | cons x xs ih =>
    intro a
    calc (x :: xs).foldl min a = xs.foldl min (min a x) := rfl
    _ ≤ min a x := ih (min a x)
    _ ≤ a := min_le_left a x

theorem foldl_min_le_mem (xs : List ℚ) : ∀ (a x : ℚ), x ∈ xs → xs.foldl min a ≤ x := by
  induction xs with
  | nil => intro a x hx; cases hx
  | cons y ys ih =>
    intro a x hx
    rcases List.mem_cons.mp hx with h | h
    · subst h
      calc (x :: ys).foldl min a = ys.foldl min (min a x) := rfl
      _ ≤ min a x := foldl_min_le_init ys (min a x)
      _ ≤ x := min_le_right a x
    · exact ih (min a y) x h

theorem init_le_foldl_max (xs : List ℚ) : ∀ a : ℚ, a ≤ xs.foldl max a := by
  induction xs with
  | nil => intro a; exact le_refl a
  | cons x xs ih =>
    intro a
    calc a ≤ max a x := le_max_left a x
    _ ≤ xs.foldl max (max a x) := ih (max a x)
    _ = (x :: xs).foldl max a := rfl

theorem mem_le_foldl_max (xs : List ℚ) : ∀ (a x : ℚ), x ∈ xs → x ≤ xs.foldl max a := by
  induction xs with
  | nil => intro a x hx; cases hx
  | cons y ys ih =>
    intro a x hx
    rcases List.mem_cons.mp hx with h | h
    · subst h
      calc x ≤ max a x := le_max_right a x
      _ ≤ ys.foldl max (max a x) := init_le_foldl_max ys (max a x)
      _ = (x :: ys).foldl max a := rfl
    · exact ih (max a y) x h

theorem listMin_le (v : List ℚ) (x : ℚ) (hx : x ∈ v) : listMin v ≤ x := by
  cases v with
  | nil => cases hx
  | cons y ys =>
    rcases List.mem_cons.mp hx with h | h
    · subst h
      exact foldl_min_le_init ys x
    · exact foldl_min_le_mem ys y x h

theorem le_listMax (v : List ℚ) (x : ℚ) (hx : x ∈ v) : x ≤ listMax v := by
  cases v with
  | nil => cases hx
  | cons y ys =>
    rcases List.mem_cons.mp hx with h | h
    · subst h
      exact init_le_foldl_max ys x
    · exact mem_le_foldl_max ys y x h

theorem length_mul_le_sum (v : List ℚ) (c : ℚ) (h : ∀ x ∈ v, c ≤ x) :
    (v.length : ℚ) * c ≤ v.sum := by
  induction v with
  | nil => simp
  | cons x xs ih =>
    have hx := h x (List.mem_cons_self x xs)
    have hxs := ih (fun y hy => h y (List.mem_cons_of_mem x hy))
    simp only [List.length_cons, List.sum_cons]
    push_cast
    linarith

theorem sum_le_length_mul (v : List ℚ) (c : ℚ) (h : ∀ x ∈ v, x ≤ c) :
    v.sum ≤ (v.length : ℚ) * c := by
  induction v with
  | nil => simp
  | cons x xs ih =>
    have hx := h x (List.mem_cons_self x xs)
    have hxs := ih (fun y hy => h y (List.mem_cons_of_mem x hy))
    simp only [List.length_cons, List.sum_cons]
    push_cast
    linarith

theorem listMean_bounds (v : List ℚ) (hv : v ≠ []) :
    listMin v ≤ listMean v ∧ listMean v ≤ listMax v := by
  have hlen : (0 : ℚ) < (v.length : ℚ) := by
    have h1 : 0 < v.length := List.length_pos.mpr hv
    exact_mod_cast h1
  constructor
  · have h1 := length_mul_le_sum v (listMin v) (fun x hx => listMin_le v x hx)
    rw [listMean, le_div_iff₀ hlen]
    linarith
  · have h1 := sum_le_length_mul v (listMax v) (fun x hx => le_listMax v x hx)
    rw [listMean, div_le_iff₀ hlen]
    linarith

theorem bootstrap_ok_elim (fp : FitPredict) (Xtr : List (List ℚ)) (ytr : List ℚ)
    (Xte : List (List ℚ)) (rs : List (List Nat)) (alpha : ℚ)
    (mean lower upper : List ℚ)
    (h : bootstrap_predict_interval fp Xtr ytr Xte rs alpha =
      Except.ok (mean, lower, upper)) :
    ∃ A, (bootLoop fp Xtr ytr Xte rs).2 = Except.ok A ∧ A.length = rs.length ∧
      A ≠ [] ∧
      mean = np_mean_axis0 A ∧
      lower = (List.range ((A.headD []).length)).map
        (fun m => percentile1 (colOf A m) (100 * (alpha / 2))) ∧
      upper = (List.range ((A.headD []).length)).map
        (fun m => percentile1 (colOf A m) (100 * (1 - alpha / 2))) := by
  unfold bootstrap_predict_interval at h
  cases hA : (bootLoop fp Xtr ytr Xte rs).2 with
  | error e => rw [hA] at h; cases h
  | ok A =>
    rw [hA] at h
    simp only [Except.bind] at h
    unfold np_percentile_axis0 at h
    split_ifs at h with h1 h2 h3 <;> simp only [Except.bind] at h
    cases h
    exact ⟨A, rfl, bootLoop_ok_length fp Xtr ytr Xte rs A hA,
      fun hnil => h1 (by rw [hnil]; rfl), rfl, rfl, rfl⟩

instance {ε α : Type} [DecidableEq ε] [DecidableEq α] :
    DecidableEq (Except ε α) := fun x y =>
  match x, y with
  | Except.error a, Except.error b =>
    if h : a = b then isTrue (by rw [h])
    else isFalse (fun hh => h (Except.error.inj hh))
  | Except.ok a, Except.ok b =>
    if h : a = b then isTrue (by rw [h])
    else isFalse (fun hh => h (Except.ok.inj hh))
  | Except.error _, Except.ok _ => isFalse (fun hh => Except.noConfusion hh)
  | Except.ok _, Except.error _ => isFalse (fun hh => Except.noConfusion hh)

/-- Model family that raises on the second draw of the concrete three-row
training set below (its resampled feature block is `[[2]]`) and predicts 0
everywhere else, standing for a model whose fit fails on one degenerate
resample. -/
def failOnSecondDraw : FitPredict := fun Xs _ _ =>
  if Xs = [[2]] then Except.error PyErr.valueError else Except.ok [0]

/-- Whether an estimator call failed with the specification's
`ModelFitError` (a `modelFit`-wrapped cause). -/
def isModelFitError : Except PyErr (List ℚ × List ℚ × List ℚ) → Bool
  | Except.error (PyErr.modelFit _) => true
  | _ => false

/-- C1, counterexample: calling the estimator with mismatched feature
widths (K = 3 training columns, K = 4 evaluation columns, the
specification's own example) does not raise `InvalidInputError` before any
model is instantiated: the sklearn-style model is instantiated and fitted
(the counting factory observes 1, not 0) and the call fails with the
library's raw `ValueError` from `predict`, not with `InvalidInputError`. -/
theorem C1_counterexample :
    bootstrap_predict_interval meanModel [[1, 2, 3]] [1] [[1, 2, 3, 4]]
        [[0]] (1 / 20) = Except.error PyErr.valueError ∧
    bootstrap_predict_interval meanModel [[1, 2, 3]] [1] [[1, 2, 3, 4]]
        [[0]] (1 / 20) ≠ Except.error PyErr.invalidInput ∧
    modelsInstantiated meanModel [[1, 2, 3]] [1] [[1, 2, 3, 4]] [[0]] = 1 := by
  refine ⟨by decide, by decide, by decide⟩

/-- C1, amended: the estimator performs no precondition validation of its
own and never produces `InvalidInputError`: whenever the supplied model
family never raises `InvalidInputError` (no library does — the class is
the specification's invention), no estimator call fails with
`InvalidInputError`; precondition-violating inputs instead surface as raw
library errors from fit/predict or from `np.percentile`, possibly after
models have already been instantiated and fitted. -/
theorem C1_no_invalid_input_error (fp : FitPredict) (Xtr : List (List ℚ))
    (ytr : List ℚ) (Xte : List (List ℚ)) (rs : List (List Nat)) (alpha : ℚ)
    (hfp : ∀ Xs ys Xt, fp Xs ys Xt ≠ Except.error PyErr.invalidInput) :
    bootstrap_predict_interval fp Xtr ytr Xte rs alpha ≠
      Except.error PyErr.invalidInput := by
  intro h
  unfold bootstrap_predict_interval at h
  cases hA : (bootLoop fp Xtr ytr Xte rs).2 with
  | error e =>
    rw [hA] at h
    simp only [Except.bind] at h
    obtain ⟨idx, hidx⟩ := bootLoop_error_src fp Xtr ytr Xte rs e hA
    have he : e = PyErr.invalidInput := Except.error.inj h
    exact hfp _ _ _ (he ▸ hidx)
  | ok A =>
    rw [hA] at h
    simp only [Except.bind] at h
    unfold np_percentile_axis0 at h
    split_ifs at h <;> simp only [Except.bind] at h <;> simp at h

theorem C1_no_invalid_input_error_witness :
    bootstrap_predict_interval (fun _ _ _ => Except.ok []) [] [] [] [] 0 ≠
      Except.error PyErr.invalidInput :=
  C1_no_invalid_input_error (fun _ _ _ => Except.ok []) [] [] [] [] 0
    (fun _ _ _ hh => Except.noConfusion hh)

/-- C2, counterexample: with a model whose fit/predict raises a raw
`ValueError` on round 2 of 3, the whole call fails — but with the
propagated raw error, not with a `ModelFitError` wrapping it, so the claim
that the call fails with `ModelFitError` is false on the code. -/
theorem C2_counterexample :
    failOnSecondDraw (gatherRows [[1], [2], [3]] [1] [])
        (gatherRows [0, 0, 0] [1] 0) [[1]] = Except.error PyErr.valueError ∧
    bootstrap_predict_interval failOnSecondDraw [[1], [2], [3]] [0, 0, 0]
        [[1]] [[0], [1], [2]] (1 / 20) = Except.error PyErr.valueError ∧
    isModelFitError (bootstrap_predict_interval failOnSecondDraw
        [[1], [2], [3]] [0, 0, 0] [[1]] [[0], [1], [2]] (1 / 20)) = false := by
  refine ⟨by decide, by decide, by decide⟩

/-- C2, amended: a fit/predict failure on any round aborts the whole
estimate call with the underlying exception itself (propagated unwrapped,
the source installing no handler): when every round before the failing one
succeeds and round `rs₁.length + 1` raises `e`, the call returns exactly
`e`, never a partial summary of the completed rounds, and no later round
is ever started (the counting factory observes `rs₁.length + 1`
instantiations). -/
theorem C2_abort_on_fit_failure (fp : FitPredict) (Xtr : List (List ℚ))
    (ytr : List ℚ) (Xte : List (List ℚ)) (rs₁ rs₂ : List (List Nat))
    (idx : List Nat) (e : PyErr) (alpha : ℚ)
    (hok : ∀ s ∈ rs₁,
      (fp (gatherRows Xtr s []) (gatherRows ytr s 0) Xte).isOk = true)
    (hfail : fp (gatherRows Xtr idx []) (gatherRows ytr idx 0) Xte =
      Except.error e) :
    bootstrap_predict_interval fp Xtr ytr Xte (rs₁ ++ idx :: rs₂) alpha =
      Except.error e ∧
    modelsInstantiated fp Xtr ytr Xte (rs₁ ++ idx :: rs₂) = rs₁.length + 1 := by
  have hloop := bootLoop_first_failure fp Xtr ytr Xte idx e hfail rs₁ rs₂ hok
  constructor
  · unfold bootstrap_predict_interval
    rw [hloop]
    rfl
  · unfold modelsInstantiated
    rw [hloop]

theorem C2_abort_on_fit_failure_witness :
    bootstrap_predict_interval failOnSecondDraw [[1], [2], [3]] [0, 0, 0]
      [[1]] ([[0]] ++ [1] :: [[2]]) (1 / 20) = Except.error PyErr.valueError ∧
    modelsInstantiated failOnSecondDraw [[1], [2], [3]] [0, 0, 0] [[1]]
      ([[0]] ++ [1] :: [[2]]) = [[0]].length + 1 :=
  C2_abort_on_fit_failure failOnSecondDraw [[1], [2], [3]] [0, 0, 0] [[1]]
    [[0]] [[2]] [1] PyErr.valueError (1 / 20) (by decide) (by decide)

theorem listMean_singleton (x : ℚ) : listMean [x] = x := by
  simp [listMean]

theorem percentile1_singleton (x q : ℚ) : percentile1 [x] q = x := by
  have hsort : sortAsc [x] = [x] := rfl
  have hpos : (q / 100) * ((([x] : List ℚ).length : ℚ) - 1) = 0 := by
    norm_num
  rw [percentile1, hsort, hpos]
  rfl

theorem colOf_singleton (p : List ℚ) (m : Nat) : colOf [p] m = [p.getD m 0] := rfl

theorem np_mean_axis0_singleton (p : List ℚ) : np_mean_axis0 [p] = p := by
  unfold np_mean_axis0
  have h1 : (([p] : List (List ℚ)).headD []) = p := rfl
  rw [h1]
  have h2 : ∀ m ∈ List.range p.length,
      listMean (colOf [p] m) = p.getD m 0 := by
    intro m _
    rw [colOf_singleton, listMean_singleton]
  rw [List.map_congr_left h2, range_map_getD_self]

theorem pct_map_singleton (p : List ℚ) (q : ℚ) :
    (List.range ((([p] : List (List ℚ)).headD []).length)).map
      (fun m => percentile1 (colOf [p] m) q) = p := by
  have h1 : (([p] : List (List ℚ)).headD []) = p := rfl
  rw [h1]
  have h2 : ∀ m ∈ List.range p.length,
      percentile1 (colOf [p] m) q = p.getD m 0 := by
    intro m _
    rw [colOf_singleton, percentile1_singleton]
  rw [List.map_congr_left h2, range_map_getD_self]

/-- C3: for every successful estimator call with more than one round and a
confidence level in (0,1) (tail mass `alpha = 1 - confidence_level`), and
for every evaluation row `m` of the B x M prediction matrix `A`, the
returned bounds satisfy `lower[m] <= upper[m]`, and `mean[m]` lies within
the minimum and maximum of column `m` of `A`. -/
theorem C3_interval_and_mean_bounds (fp : FitPredict) (Xtr : List (List ℚ))
    (ytr : List ℚ) (Xte : List (List ℚ)) (rs : List (List Nat)) (alpha : ℚ)
    (A : List (List ℚ)) (mean lower upper : List ℚ) (m : Nat)
    (hrounds : 1 < rs.length) (h0 : 0 < alpha) (h1 : alpha < 1)
    (hA : (bootLoop fp Xtr ytr Xte rs).2 = Except.ok A)
    (hres : bootstrap_predict_interval fp Xtr ytr Xte rs alpha =
      Except.ok (mean, lower, upper))
    (hm : m < (A.headD []).length) :
    lower.getD m 0 ≤ upper.getD m 0 ∧
    listMin (colOf A m) ≤ mean.getD m 0 ∧
    mean.getD m 0 ≤ listMax (colOf A m) := by
  obtain ⟨A₂, hA₂, hlen, hne, hmean, hlow, hup⟩ :=
    bootstrap_ok_elim fp Xtr ytr Xte rs alpha mean lower upper hres
  have hAeq : A₂ = A := Except.ok.inj (hA₂.symm.trans hA)
  subst hAeq
  have hcne : colOf A₂ m ≠ [] := by
    intro hc
    have := colOf_length A₂ m
    rw [hc] at this
    exact hne (List.eq_nil_of_length_eq_zero this.symm)
  have hclen : 1 ≤ (colOf A₂ m).length := by
    rw [colOf_length]
    have := List.length_pos.mpr hne
    omega
  have hlowm : lower.getD m 0 = percentile1 (colOf A₂ m) (100 * (alpha / 2)) := by
    rw [hlow, getD_map_range _ _ _ hm]
  have hupm : upper.getD m 0 =
      percentile1 (colOf A₂ m) (100 * (1 - alpha / 2)) := by
    rw [hup, getD_map_range _ _ _ hm]
  have hmeanm : mean.getD m 0 = listMean (colOf A₂ m) := by
    rw [hmean, np_mean_axis0, getD_map_range _ _ _ hm]
  refine ⟨?_, ?_, ?_⟩
  · rw [hlowm, hupm]
    exact percentile1_mono (colOf A₂ m) hclen _ _ (by linarith) (by linarith)
  · rw [hmeanm]
    exact (listMean_bounds (colOf A₂ m) hcne).1
  · rw [hmeanm]
    exact (listMean_bounds (colOf A₂ m) hcne).2

theorem C3_interval_and_mean_bounds_witness :
    ([(1 : ℚ)/20, 1/20].getD 0 0 ≤ [(19 : ℚ)/20, 19/20].getD 0 0) ∧
    listMin (colOf [[(0 : ℚ), 0], [1, 1]] 0) ≤ [(1 : ℚ)/2, 1/2].getD 0 0 ∧
    [(1 : ℚ)/2, 1/2].getD 0 0 ≤ listMax (colOf [[(0 : ℚ), 0], [1, 1]] 0) :=
  C3_interval_and_mean_bounds meanModel [[1], [2]] [0, 1] [[1], [1]]
    [[0, 0], [1, 1]] (1/10) [[0, 0], [1, 1]]
    [1/2, 1/2] [1/20, 1/20] [19/20, 19/20] 0
    (by decide) (by norm_num) (by norm_num)
    (by norm_num [bootLoop, meanModel, gatherRows, listMean, Except.map])
    (by norm_num [bootstrap_predict_interval, bootLoop, meanModel, gatherRows,
      listMean, np_percentile_axis0, np_mean_axis0, percentile1, interpAt,
      sortAsc, List.insertionSort, List.orderedInsert, colOf, Except.bind,
      Except.map, List.range_succ, List.range_zero, Int.toNat_ofNat])
    (by decide)

/-- C4: an estimator call with a single bootstrap round and a valid tail
mass returns the single fitted model's prediction vector as all three
outputs: `mean = lower = upper = p` where `p` is the prediction of the one
round. -/
theorem C4_single_round_collapse (fp : FitPredict) (Xtr : List (List ℚ))
    (ytr : List ℚ) (Xte : List (List ℚ)) (idx : List Nat) (alpha : ℚ)
    (p : List ℚ) (h0 : 0 < alpha) (h1 : alpha < 1)
    (hfp : fp (gatherRows Xtr idx []) (gatherRows ytr idx 0) Xte =
      Except.ok p) :
    bootstrap_predict_interval fp Xtr ytr Xte [idx] alpha =
      Except.ok (p, p, p) := by
  have hloop : bootLoop fp Xtr ytr Xte [idx] = (1, Except.ok [p]) := by
    rw [bootLoop_cons_ok fp Xtr ytr Xte idx [] p hfp, bootLoop_nil]
    rfl
  unfold bootstrap_predict_interval
  rw [hloop]
  simp only [Except.bind]
  unfold np_percentile_axis0
  have hlen : ¬ (([p] : List (List ℚ)).length = 0) := by simp
  have hq1 : 0 ≤ 100 * (alpha / 2) ∧ 100 * (alpha / 2) ≤ 100 := by
    constructor <;> linarith
  have hq2 : 0 ≤ 100 * (1 - alpha / 2) ∧ 100 * (1 - alpha / 2) ≤ 100 := by
    constructor <;> linarith
  rw [if_neg hlen, if_pos hq1, if_neg hlen, if_pos hq2]
  simp only [Except.bind]
  rw [np_mean_axis0_singleton, pct_map_singleton, pct_map_singleton]

theorem C4_single_round_collapse_witness :
    bootstrap_predict_interval meanModel [[1], [2]] [0, 1] [[1], [1]]
      [[0, 1]] (1/10) = Except.ok ([(1 : ℚ)/2, 1/2], [(1 : ℚ)/2, 1/2], [(1 : ℚ)/2, 1/2]) :=
  C4_single_round_collapse meanModel [[1], [2]] [0, 1] [[1], [1]] [0, 1]
    (1/10) [(1 : ℚ)/2, 1/2] (by norm_num) (by norm_num)
    (by norm_num [meanModel, gatherRows, listMean])

/-- C5, counterexample: numpy's default percentile interpolates linearly,
so the returned bound is in general not the value at the specification's
nearest rank: on the 4-round prediction column `[0, 1, 2, 3]` with
confidence 1/2, the code returns `lower = 3/4` and `upper = 9/4`, while
the nearest-rank values at ranks `ceil(B*(1-c)/2) = 1` and
`floor(B*(1-(1-c)/2)) = 3` are `0` and `2`. -/
theorem C5_counterexample :
    bootstrap_predict_interval meanModel [[1], [2], [3], [4]] [0, 1, 2, 3]
        [[5]] [[0], [1], [2], [3]] (1/2) =
      Except.ok ([(3 : ℚ)/2], [(3 : ℚ)/4], [(9 : ℚ)/4]) ∧
    nearestRankValue (colOf [[(0 : ℚ)], [1], [2], [3]] 0)
      (specLowerRank 4 (1/2)) = 0 ∧
    nearestRankValue (colOf [[(0 : ℚ)], [1], [2], [3]] 0)
      (specUpperRank 4 (1/2)) = 2 ∧
    ¬ ((3 : ℚ)/4 = 0) ∧ ¬ ((9 : ℚ)/4 = 2) := by
  refine ⟨?_, ?_, ?_, by norm_num, by norm_num⟩
  · norm_num [bootstrap_predict_interval, bootLoop, meanModel, gatherRows,
      listMean, np_percentile_axis0, np_mean_axis0, percentile1, interpAt,
      sortAsc, List.insertionSort, List.orderedInsert, colOf, Except.bind,
      Except.map, List.range_succ, List.range_zero, Int.toNat_ofNat]
    norm_num [show Int.toNat 2 = 2 from rfl, show Int.toNat 3 = 3 from rfl]
  · norm_num [nearestRankValue, specLowerRank, sortAsc, colOf,
      List.insertionSort, List.orderedInsert]
  · norm_num [nearestRankValue, specUpperRank, sortAsc, colOf,
      List.insertionSort, List.orderedInsert, Int.toNat_ofNat]
    norm_num [show Int.toNat 2 = 2 from rfl, show Int.toNat 3 = 3 from rfl]

/-- C5, amended: for every successful estimator call and evaluation row
`m`, `lower[m]` and `upper[m]` are the linearly interpolated percentiles
(numpy's default rule) of the sorted column `m` at positions
`(1-c)/2 * (B-1)` and `(1-(1-c)/2) * (B-1)` where `B = rounds` and the
tail mass is `alpha = 1-c` — the same interpolation rule applied
consistently to both bounds. -/
theorem C5_interpolated_percentile (fp : FitPredict) (Xtr : List (List ℚ))
    (ytr : List ℚ) (Xte : List (List ℚ)) (rs : List (List Nat)) (alpha : ℚ)
    (A : List (List ℚ)) (mean lower upper : List ℚ) (m : Nat)
    (hA : (bootLoop fp Xtr ytr Xte rs).2 = Except.ok A)
    (hres : bootstrap_predict_interval fp Xtr ytr Xte rs alpha =
      Except.ok (mean, lower, upper))
    (hm : m < (A.headD []).length) :
    lower.getD m 0 =
      interpAt (sortAsc (colOf A m)) ((alpha / 2) * ((rs.length : ℚ) - 1)) ∧
    upper.getD m 0 =
      interpAt (sortAsc (colOf A m)) ((1 - alpha / 2) * ((rs.length : ℚ) - 1)) := by
  obtain ⟨A₂, hA₂, hlen, hne, hmean, hlow, hup⟩ :=
    bootstrap_ok_elim fp Xtr ytr Xte rs alpha mean lower upper hres
  have hAeq : A₂ = A := Except.ok.inj (hA₂.symm.trans hA)
  subst hAeq
  have hclen : ((colOf A₂ m).length : ℚ) = (rs.length : ℚ) := by
    rw [colOf_length, hlen]
  constructor
  · rw [hlow, getD_map_range _ _ _ hm, percentile1, hclen]
    have hq : (100 * (alpha / 2)) / 100 = alpha / 2 := by ring
    rw [hq]
  · rw [hup, getD_map_range _ _ _ hm, percentile1, hclen]
    have hq : (100 * (1 - alpha / 2)) / 100 = 1 - alpha / 2 := by ring
    rw [hq]

theorem C5_interpolated_percentile_witness :
    [(3 : ℚ)/4].getD 0 0 =
      interpAt (sortAsc (colOf [[(0 : ℚ)], [1], [2], [3]] 0))
        (((1 : ℚ)/2 / 2) * ((([[0], [1], [2], [3]] : List (List Nat)).length : ℚ) - 1)) ∧
    [(9 : ℚ)/4].getD 0 0 =
      interpAt (sortAsc (colOf [[(0 : ℚ)], [1], [2], [3]] 0))
        ((1 - (1 : ℚ)/2 / 2) * ((([[0], [1], [2], [3]] : List (List Nat)).length : ℚ) - 1)) :=
  C5_interpolated_percentile meanModel [[1], [2], [3], [4]] [0, 1, 2, 3]
    [[5]] [[0], [1], [2], [3]] (1/2) [[0], [1], [2], [3]]
    [(3 : ℚ)/2] [(3 : ℚ)/4] [(9 : ℚ)/4] 0
    (by norm_num [bootLoop, meanModel, gatherRows, listMean, Except.map])
    (by
      norm_num [bootstrap_predict_interval, bootLoop, meanModel, gatherRows,
        listMean, np_percentile_axis0, np_mean_axis0, percentile1, interpAt,
        sortAsc, List.insertionSort, List.orderedInsert, colOf, Except.bind,
        Except.map, List.range_succ, List.range_zero, Int.toNat_ofNat]
      norm_num [show Int.toNat 2 = 2 from rfl, show Int.toNat 3 = 3 from rfl])
    (by decide)

/-- C6: two estimator calls on the same prediction matrix (same inputs,
same per-round resamples and models) with confidence levels `c₁ < c₂`,
both in (0,1), never give a strictly narrower interval at the higher
confidence: for every row `m`, `lower_2[m] <= lower_1[m]` and
`upper_1[m] <= upper_2[m]` (the code receives the tail mass
`alpha = 1 - c`). -/
theorem C6_confidence_never_narrows (fp : FitPredict) (Xtr : List (List ℚ))
    (ytr : List ℚ) (Xte : List (List ℚ)) (rs : List (List Nat)) (c₁ c₂ : ℚ)
    (A : List (List ℚ)) (mean₁ lower₁ upper₁ mean₂ lower₂ upper₂ : List ℚ)
    (m : Nat) (h0 : 0 < c₁) (h12 : c₁ < c₂) (h1 : c₂ < 1)
    (hA : (bootLoop fp Xtr ytr Xte rs).2 = Except.ok A)
    (hres₁ : bootstrap_predict_interval fp Xtr ytr Xte rs (1 - c₁) =
      Except.ok (mean₁, lower₁, upper₁))
    (hres₂ : bootstrap_predict_interval fp Xtr ytr Xte rs (1 - c₂) =
      Except.ok (mean₂, lower₂, upper₂))
    (hm : m < (A.headD []).length) :
    lower₂.getD m 0 ≤ lower₁.getD m 0 ∧ upper₁.getD m 0 ≤ upper₂.getD m 0 := by
  obtain ⟨A₁, hA₁, hlen₁, hne₁, hmean₁, hlow₁, hup₁⟩ :=
    bootstrap_ok_elim fp Xtr ytr Xte rs (1 - c₁) mean₁ lower₁ upper₁ hres₁
  obtain ⟨A₂, hA₂, hlen₂, hne₂, hmean₂, hlow₂, hup₂⟩ :=
    bootstrap_ok_elim fp Xtr ytr Xte rs (1 - c₂) mean₂ lower₂ upper₂ hres₂
  have hAeq₁ : A₁ = A := Except.ok.inj (hA₁.symm.trans hA)
  have hAeq₂ : A₂ = A := Except.ok.inj (hA₂.symm.trans hA)
  rw [hAeq₁] at hlow₁ hup₁ hne₁
  rw [hAeq₂] at hlow₂ hup₂
  have hclen : 1 ≤ (colOf A m).length := by
    rw [colOf_length]
    have := List.length_pos.mpr hne₁
    omega
  constructor
  · rw [hlow₁, hlow₂, getD_map_range _ _ _ hm, getD_map_range _ _ _ hm]
    exact percentile1_mono (colOf A m) hclen _ _ (by linarith) (by linarith)
  · rw [hup₁, hup₂, getD_map_range _ _ _ hm, getD_map_range _ _ _ hm]
    exact percentile1_mono (colOf A m) hclen _ _ (by linarith) (by linarith)

theorem C6_confidence_never_narrows_witness :
    [(1 : ℚ)/20, 1/20].getD 0 0 ≤ [(1 : ℚ)/10, 1/10].getD 0 0 ∧
    [(9 : ℚ)/10, 9/10].getD 0 0 ≤ [(19 : ℚ)/20, 19/20].getD 0 0 :=
  C6_confidence_never_narrows meanModel [[1], [2]] [0, 1] [[1], [1]]
    [[0, 0], [1, 1]] (4/5) (9/10) [[0, 0], [1, 1]]
    [1/2, 1/2] [1/10, 1/10] [9/10, 9/10]
    [1/2, 1/2] [1/20, 1/20] [19/20, 19/20] 0
    (by norm_num) (by norm_num) (by norm_num)
    (by norm_num [bootLoop, meanModel, gatherRows, listMean, Except.map])
    (by norm_num [bootstrap_predict_interval, bootLoop, meanModel, gatherRows,
      listMean, np_percentile_axis0, np_mean_axis0, percentile1, interpAt,
      sortAsc, List.insertionSort, List.orderedInsert, colOf, Except.bind,
      Except.map, List.range_succ, List.range_zero, Int.toNat_ofNat])
    (by norm_num [bootstrap_predict_interval, bootLoop, meanModel, gatherRows,
      listMean, np_percentile_axis0, np_mean_axis0, percentile1, interpAt,
      sortAsc, List.insertionSort, List.orderedInsert, colOf, Except.bind,
      Except.map, List.range_succ, List.range_zero, Int.toNat_ofNat])
    (by decide)

theorem rf_same_pipeline : rf_bootstrap_interval = bootstrap_predict_interval := rfl

/-- C7: the XGBoost variant clamps every target to the floor 0.90 before
any round runs — `xgb_bootstrap_interval` is exactly the shared pipeline
called on `clipLower y (9/10)` — and consequently, for any round whose
resample indices are in range, every resampled target value handed to
`fit` is at least 9/10, even when the original target (e.g. 0.5) is
below the floor. -/
theorem C7_target_floor_clamp (fp : FitPredict) (X : List (List ℚ))
    (y : List ℚ) (Xte : List (List ℚ)) (rs : List (List Nat)) (alpha : ℚ) :
    xgb_bootstrap_interval fp X y Xte rs alpha =
      bootstrap_predict_interval fp X (clipLower y (9/10)) Xte rs alpha ∧
    ∀ idx : List Nat, (∀ i ∈ idx, i < y.length) →
      ∀ t ∈ gatherRows (clipLower y (9/10)) idx 0, 9/10 ≤ t := by
  constructor
  · rfl
  · intro idx hidx t ht
    simp only [gatherRows] at ht
    obtain ⟨i, hi_mem, hi_eq⟩ := List.mem_map.mp ht
    have hiy : i < y.length := hidx i hi_mem
    rw [← hi_eq, clipLower, getD_map_of_lt _ y i hiy 0 0]
    exact le_max_right _ _

theorem C7_target_floor_clamp_witness :
    xgb_bootstrap_interval meanModel [[1]] [1/2] [[1]] [[0]] (1/10) =
      bootstrap_predict_interval meanModel [[1]] (clipLower [1/2] (9/10))
        [[1]] [[0]] (1/10) ∧
    (9 : ℚ)/10 ≤ (clipLower [(1 : ℚ)/2] (9/10)).getD 0 0 :=
  ⟨(C7_target_floor_clamp meanModel [[1]] [1/2] [[1]] [[0]] (1/10)).1,
    (C7_target_floor_clamp meanModel [[1]] [1/2] [[1]] [[0]] (1/10)).2
      [0] (by decide) ((clipLower [(1 : ℚ)/2] (9/10)).getD 0 0)
      (by simp [gatherRows])⟩

/-- C8: the estimator is deterministic given the randomness-derived data
of each round: once the per-round seeds fix the resample draws (the `rs`
argument) and the behavior of each round's fitted model on its resampled
data (the two model functions agree on every resample actually drawn),
two runs with identical train/eval inputs and tail mass produce
bit-identical `(mean, lower, upper)` outputs. -/
theorem C8_deterministic_given_seeds (fp₁ fp₂ : FitPredict)
    (Xtr : List (List ℚ)) (ytr : List ℚ) (Xte : List (List ℚ))
    (rs : List (List Nat)) (alpha : ℚ)
    (h : ∀ idx ∈ rs, fp₁ (gatherRows Xtr idx []) (gatherRows ytr idx 0) Xte =
      fp₂ (gatherRows Xtr idx []) (gatherRows ytr idx 0) Xte) :
    bootstrap_predict_interval fp₁ Xtr ytr Xte rs alpha =
      bootstrap_predict_interval fp₂ Xtr ytr Xte rs alpha := by
  unfold bootstrap_predict_interval
  rw [bootLoop_congr fp₁ fp₂ Xtr ytr Xte rs h]

theorem C8_deterministic_given_seeds_witness :
    bootstrap_predict_interval meanModel [[1], [2]] [0, 1] [[1], [1]]
      [[0, 0], [1, 1]] (1/10) =
    bootstrap_predict_interval meanModel [[1], [2]] [0, 1] [[1], [1]]
      [[0, 0], [1, 1]] (1/10) :=
  C8_deterministic_given_seeds meanModel meanModel [[1], [2]] [0, 1]
    [[1], [1]] [[0, 0], [1, 1]] (1/10) (fun _ _ => rfl)

/-- C9: the XGBoost result writer computes both written prediction
columns from the `upper` bound only — for every row index `i` the written
予測最低制限価格（万円） is `upper[i] * 予定価格 / 10000` and the written
予測制限率（%） is `upper[i] * 100` — and the `mean` and `lower`
sequences are discarded: the output is invariant under replacing them. -/
theorem C9_saves_upper_bound (mean lower upper mean₂ lower₂ : List ℚ)
    (raw : List RawRow) (i : Nat) (hi : i < raw.length) :
    (save_result mean lower upper raw).getD i ⟨"", 0, 0, 0⟩ =
      { kojiMei := (raw.getD i ⟨"", 0⟩).kojiMei
        yoteiKakaku := (raw.getD i ⟨"", 0⟩).yoteiKakaku
        yosokuSaiteiSeigenKakakuMan :=
          upper.getD i 0 * (raw.getD i ⟨"", 0⟩).yoteiKakaku / 10000
        yosokuSeigenRitsuPct := upper.getD i 0 * 100 } ∧
    save_result mean lower upper raw = save_result mean₂ lower₂ upper raw := by
  constructor
  · unfold save_result
    rw [List.getD_eq_getElem?_getD, List.getElem?_map, List.getElem?_enum,
      List.getElem?_eq_getElem hi, List.getD_eq_getElem raw ⟨"", 0⟩ hi]
    rfl
  · rfl

theorem C9_saves_upper_bound_witness :
    (save_result [] [] [9/10] [⟨"a", 20000⟩]).getD 0 ⟨"", 0, 0, 0⟩ =
      { kojiMei := (([⟨"a", 20000⟩] : List RawRow).getD 0 ⟨"", 0⟩).kojiMei
        yoteiKakaku := (([⟨"a", 20000⟩] : List RawRow).getD 0 ⟨"", 0⟩).yoteiKakaku
        yosokuSaiteiSeigenKakakuMan :=
          ([(9 : ℚ)/10] : List ℚ).getD 0 0 *
            (([⟨"a", 20000⟩] : List RawRow).getD 0 ⟨"", 0⟩).yoteiKakaku / 10000
        yosokuSeigenRitsuPct := ([(9 : ℚ)/10] : List ℚ).getD 0 0 * 100 } ∧
    save_result [] [] [9/10] [⟨"a", 20000⟩] =
      save_result [1] [2] [9/10] [⟨"a", 20000⟩] :=
  C9_saves_upper_bound [] [] [9/10] [1] [2] [⟨"a", 20000⟩] 0 (by decide)

/-- C10: `save_to_csv` in append mode is idempotent with respect to the
deduplication key (工事名, 開札日時): no row it writes carries a key
already present in the existing file, and a second call with the same
data on the resulting file writes nothing new. -/
theorem C10_save_to_csv_idempotent (data existing : List CsvRow) :
    (∀ r ∈ dedupNewRows data existing, rowKey r ∉ existing.map rowKey) ∧
    save_to_csv data (save_to_csv data existing) = save_to_csv data existing := by
  constructor
  · intro r hr
    exact of_decide_eq_true (List.mem_filter.mp hr).2
  · unfold save_to_csv
    have hnil : dedupNewRows data (existing ++ dedupNewRows data existing) = [] := by
      unfold dedupNewRows
      rw [List.filter_eq_nil_iff]
      intro r hr
      simp only [decide_eq_true_iff, not_not]
      rw [List.map_append]
      by_cases hk : rowKey r ∈ existing.map rowKey
      · exact List.mem_append_left _ hk
      · refine List.mem_append_right _ ?_
        have hrmem : r ∈ dedupNewRows data existing :=
          List.mem_filter.mpr ⟨hr, decide_eq_true hk⟩
        exact List.mem_map_of_mem rowKey hrmem
    rw [hnil, List.append_nil]

theorem C10_save_to_csv_idempotent_witness :
    save_to_csv [⟨"a", "b", []⟩]
        (save_to_csv [⟨"a", "b", []⟩] [⟨"a", "b", []⟩]) =
      save_to_csv [⟨"a", "b", []⟩] [⟨"a", "b", []⟩] :=
  (C10_save_to_csv_idempotent [⟨"a", "b", []⟩] [⟨"a", "b", []⟩]).2
